import Mathlib

/-!
Verification development for the `gimme` HTTP/S request library
(`src/gimme.js`).  The single exported function `request(requestOptions)`
is embedded shallowly: the asynchronous transport is replaced by an
explicit list of per-attempt server events, and the promise outcome
together with the trace of issued network attempts is computed by a
recursive Lean function `request`.

Platform capabilities that the source consumes (`url.parse`,
`querystring.stringify`, `JSON.stringify`, JavaScript string length)
are modelled by executable Lean functions that follow the platform
semantics on the inputs the library exercises (http/https URLs without
userinfo, flat objects of string/number values).
-/

namespace Gimme

/-- JavaScript scalar values admitted in a request body object
(flat mapping of string keys to strings or numbers). -/
inductive JsonVal where
  | str (s : String)
  | num (n : Int)
deriving DecidableEq

/-- A request body: a flat key/value object, in insertion order. -/
abbrev Body := List (String × JsonVal)

/-- Header values: JavaScript stores strings, except `Content-Length`
which the source assigns as a number (`postData.length`). -/
inductive HVal where
  | s (v : String)
  | n (v : Nat)
deriving DecidableEq

/-- A headers object: key/value pairs in insertion order. -/
abbrev Headers := List (String × HVal)

/-- Property lookup on a headers object: first entry with the key. -/
def lookupHeader : Headers → String → Option HVal
  | [], _ => none
  | kv :: rest, k => if kv.1 = k then some kv.2 else lookupHeader rest k

/-- Property assignment `obj[k] = v` on a headers object: overwrite in
place when the key exists, append otherwise. -/
def setHeader (hs : Headers) (k : String) (v : HVal) : Headers :=
  if hs.any (fun kv => kv.1 == k) then
    hs.map (fun kv => if kv.1 == k then (k, v) else kv)
  else hs ++ [(k, v)]

/-- Lowercase hex digit, as produced by `JSON.stringify` escapes. -/
def hexDigitLower (n : Nat) : Char :=
  if n < 10 then Char.ofNat (48 + n) else Char.ofNat (87 + n)

/-- Uppercase hex digit, as produced by `querystring.stringify`. -/
def hexDigitUpper (n : Nat) : Char :=
  if n < 10 then Char.ofNat (48 + n) else Char.ofNat (55 + n)

/-- Modelled platform capability: the escaping `JSON.stringify` applies
inside a string literal (quote, backslash, control characters; all
other characters, including non-ASCII, are emitted verbatim). -/
def escapeJsonChar (c : Char) : String :=
  if c = Char.ofNat 34 then "\\\""
  else if c = Char.ofNat 92 then "\\\\"
  else if c = Char.ofNat 10 then "\\n"
  else if c = Char.ofNat 13 then "\\r"
  else if c = Char.ofNat 9 then "\\t"
  else if c = Char.ofNat 8 then "\\b"
  else if c = Char.ofNat 12 then "\\f"
  else if c.toNat < 32 then
    String.mk [Char.ofNat 92, 'u', '0', '0',
      hexDigitLower (c.toNat / 16), hexDigitLower (c.toNat % 16)]
  else String.singleton c

/-- Modelled platform capability: a JSON string literal. -/
def escapeJsonString (s : String) : String :=
  "\"" ++ String.join (s.data.map escapeJsonChar) ++ "\""

/-- Modelled platform capability: `JSON.stringify` of a scalar value. -/
def jsonValStr : JsonVal → String
  | .str s => escapeJsonString s
  | .num n => toString n

/-- Modelled platform capability: `JSON.stringify` of a flat object,
keys in insertion order. -/
def jsonStringify (b : Body) : String :=
  "\x7b" ++ String.intercalate ","
    (b.map (fun kv => escapeJsonString kv.1 ++ ":" ++ jsonValStr kv.2)) ++ "\x7d"

/-- UTF-8 encoding of one Unicode code point, as byte values. -/
def utf8Bytes (c : Char) : List Nat :=
  let n := c.toNat
  if n < 128 then [n]
  else if n < 2048 then [192 + n / 64, 128 + n % 64]
  else if n < 65536 then [224 + n / 4096, 128 + (n / 64) % 64, 128 + n % 64]
  else [240 + n / 262144, 128 + (n / 4096) % 64, 128 + (n / 64) % 64, 128 + n % 64]

/-- JavaScript `String.prototype.length`: the number of UTF-16 code
units (code points at or above U+10000 count twice). -/
def jsLength (s : String) : Nat :=
  (s.data.map (fun c => if c.toNat < 65536 then 1 else 2)).sum

/-- The number of bytes of the UTF-8 encoding of a string, i.e. the
octet count actually written on the wire by `request.write`. -/
def utf8Len (s : String) : Nat :=
  (s.data.map (fun c => (utf8Bytes c).length)).sum

/-- Characters `querystring.escape` leaves unencoded. -/
def qsUnreserved (c : Char) : Bool :=
  c.isAlphanum || c == '-' || c == '_' || c == '.' || c == '!' || c == '~' ||
  c == Char.ofNat 42 || c == Char.ofNat 39 || c == '(' || c == ')'

/-- Percent-encoding of a single byte. -/
def percentByte (b : Nat) : String :=
  String.mk ['%', hexDigitUpper (b / 16), hexDigitUpper (b % 16)]

/-- Modelled platform capability: `querystring.escape`. -/
def qsEscape (s : String) : String :=
  String.join (s.data.map (fun c =>
    if qsUnreserved c then String.singleton c
    else String.join ((utf8Bytes c).map percentByte)))

/-- Coercion of a scalar to the string `querystring.stringify` uses. -/
def qsValString : JsonVal → String
  | .str s => s
  | .num n => toString n

/-- Modelled platform capability: `querystring.stringify` of a flat
object. -/
def querystringStringify (b : Body) : String :=
  String.intercalate "&"
    (b.map (fun kv => qsEscape kv.1 ++ "=" ++ qsEscape (qsValString kv.2)))

/-- Result of the legacy `url.parse` capability, restricted to the
fields the source reads: `protocol`, `hostname`, `port`, `path`. -/
structure UrlObj where
  protocol : Option String
  hostname : Option String
  port : Option Nat
  path : String
deriving DecidableEq

/-- Split a character list at the first character satisfying `p`. -/
def takeUntil (p : Char → Bool) : List Char → List Char × List Char
  | [] => ([], [])
  | c :: cs =>
    if p c then ([], c :: cs)
    else
      let r := takeUntil p cs
      (c :: r.1, r.2)

/-- Decimal digits to a number. -/
def digitsToNat (l : List Char) : Nat :=
  l.foldl (fun acc c => acc * 10 + (c.toNat - 48)) 0

/-- Parse `hostname[:port][/path...]` after a recognized scheme. -/
def parseRest (proto : String) (rest : List Char) : UrlObj :=
  let a := takeUntil (fun c => c == '/') rest
  let hp := takeUntil (fun c => c == ':') a.1
  let port : Option Nat :=
    match hp.2 with
    | [] => none
    | _ :: ds => if ds ≠ [] ∧ ds.all (fun c => c.isDigit) then some (digitsToNat ds) else none
  { protocol := some proto
    hostname := if hp.1 = [] then none else some (String.mk hp.1)
    port := port
    path := if a.2 = [] then "/" else String.mk a.2 }

/-- The source's scheme test `url.search(/^http[s]?:\/\//) == -1`,
negated: whether the URL begins with `http://` or `https://`. -/
def hasScheme (u : String) : Bool :=
  "http://".data.isPrefixOf u.data || "https://".data.isPrefixOf u.data

/-- Modelled platform capability: legacy `url.parse`, restricted to
http/https URLs without userinfo.  A string without a recognized
scheme is all path and has no hostname, matching the legacy parser
with `slashesDenoteHost = false`. -/
def parseUrl (u : String) : UrlObj :=
  if "http://".data.isPrefixOf u.data then parseRest "http:" (u.data.drop 7)
  else if "https://".data.isPrefixOf u.data then parseRest "https:" (u.data.drop 8)
  else { protocol := none, hostname := none, port := none, path := u }

/-- JavaScript `String.prototype.startsWith`. -/
def jsStartsWith (s p : String) : Bool :=
  p.data.isPrefixOf s.data

/-- The input configuration object; absent properties are `none`
(`url` also treats an explicit `null` as `none`). -/
structure RequestOptions where
  url : Option String := none
  method : Option String := none
  body : Option Body := none
  contentType : Option String := none
  headers : Option Headers := none
  followRedirect : Option Bool := none
  maxRedirects : Option Int := none
  timeout : Option Int := none
deriving DecidableEq

/-- Modelled platform capability: `String.prototype.toUpperCase`
(ASCII case mapping, structurally recursive so proofs can evaluate
it). -/
def jsToUpper (s : String) : String :=
  String.mk (s.data.map Char.toUpper)

/-- The configuration after the validate-and-default block
(source lines 53-60). -/
structure NormalOptions where
  url : Option String
  method : String
  body : Option Body
  contentType : String
  headers : Headers
  followRedirect : Bool
  maxRedirects : Int
  timeout : Int
deriving DecidableEq

/-- Validate request options properties and set defaults
(source lines 53-60). -/
def normalize (o : RequestOptions) : NormalOptions :=
  { url := o.url
    method := match o.method with | none => "GET" | some m => jsToUpper m
    body := o.body
    contentType := match o.contentType with | none => "FORM" | some c => jsToUpper c
    headers := o.headers.getD []
    followRedirect := o.followRedirect.getD true
    maxRedirects := o.maxRedirects.getD 10
    timeout := o.timeout.getD 10000 }

/-- Backfill the protocol when missing (source lines 74-76). -/
def backfillScheme (u : String) : String :=
  if hasScheme u then u else "http://" ++ u

/-- Port resolution (source lines 89-97). -/
def portOf (ro : UrlObj) : Option Int :=
  if ro.port = none ∧ ro.protocol = none then some 80
  else if ro.port = none ∧ ro.protocol = some "https:" then some 443
  else if ro.port = none ∧ ro.protocol = some "http:" then some 80
  else ro.port.map (fun p => (p : Int))

/-- Result of body encoding (source lines 102-127): the possibly
extended path, the possibly augmented headers, and the payload. -/
structure EncodedBody where
  path : String
  hdrs : Headers
  postData : Option String
deriving DecidableEq

/-- Body encoding (source lines 102-127): GET bodies become a query
string appended to the path; other bodies are JSON-serialized and the
`Content-Type` / `Content-Length` headers are set, with the value of
`Content-Type` chosen by the `contentType` switch. -/
def encodeBody (n : NormalOptions) (basePath : String) : EncodedBody :=
  match n.body with
  | none => { path := basePath, hdrs := n.headers, postData := none }
  | some b =>
    if n.method = "GET" then
      { path := basePath ++ "?" ++ querystringStringify b
        hdrs := n.headers
        postData := none }
    else
      let postData := jsonStringify b
      let ct : String :=
        match n.contentType with
        | "JSON" => "application/json"
        | "FORM" => "application/x-www-form-urlencoded"
        | _ => "application/x-www-form-urlencoded"
      let h1 := setHeader n.headers "Content-Type" (.s ct)
      let h2 := setHeader h1 "Content-Length" (.n (jsLength postData))
      { path := basePath, hdrs := h2, postData := some postData }

/-- The options object handed to the platform HTTP/S client
(source lines 82-100 plus the body-encoding mutations). -/
structure CallOptions where
  hostname : Option String
  path : String
  port : Option Int
  method : String
  headers : Headers
deriving DecidableEq

/-- One network attempt as observed at the transport boundary:
the resolved call, the payload written, which client module was
selected, whether the attempt was aborted, and the value of
`maxRedirects` while this attempt was in flight. -/
structure Attempt where
  call : CallOptions
  payload : Option String
  usedHttps : Bool
  aborted : Bool
  remaining : Int
deriving DecidableEq

/-- Build the attempt the executor issues for normalized options whose
(scheme-backfilled) URL is `u1`. -/
def mkAttempt (n : NormalOptions) (u1 : String) : Attempt :=
  let ro := parseUrl u1
  let eb := encodeBody n ro.path
  { call :=
      { hostname := ro.hostname
        path := eb.path
        port := portOf ro
        method := n.method
        headers := eb.hdrs }
    payload := eb.postData
    usedHttps := jsStartsWith u1 "https"
    aborted := false
    remaining := n.maxRedirects }

/-- A server response: status code, (lowercased) headers, body chunks
delivered in order. -/
structure Response where
  statusCode : Int
  headers : List (String × String)
  chunks : List String
deriving DecidableEq

/-- Property lookup on response headers. -/
def lookupRespHeader : List (String × String) → String → Option String
  | [], _ => none
  | kv :: rest, k => if kv.1 = k then some kv.2 else lookupRespHeader rest k

/-- `response.headers.location`, as the truthiness test at source line
139 sees it: an empty-string location is falsy and behaves like an
absent one. -/
def getLocation (r : Response) : Option String :=
  match lookupRespHeader r.headers "location" with
  | none => none
  | some l => if l = "" then none else some l

/-- What the transport delivers for one attempt: a full response, a
socket timeout before completion, or a connection-level error. -/
inductive ServerEvent where
  | response (r : Response)
  | timeout
  | transportError (code syscall : String)
deriving DecidableEq

/-- Structured error `{code, msg}` (source builds these inline). -/
structure ErrorInfo where
  code : String
  msg : String
deriving DecidableEq

/-- `{status, headers, body}`, the resolution value built at source
lines 183-188; `headers` is `JSON.stringify(response.headers)`. -/
structure RequestResult where
  status : Int
  headers : String
  body : String
deriving DecidableEq

/-- How the returned promise settles.  `rejectedStr` is a rejection
whose reason is a JSON string (the source stringifies the error object
at lines 70 and 208); `rejectedObj` is a rejection with the error
object itself; `noEvent` marks a run whose event list was exhausted
with the promise still pending. -/
inductive Outcome where
  | resolved (r : RequestResult)
  | rejectedObj (e : ErrorInfo)
  | rejectedStr (s : String)
  | noEvent
deriving DecidableEq

/-- `JSON.stringify({code: c, msg: m})`. -/
def errJson (c m : String) : String :=
  jsonStringify [("code", .str c), ("msg", .str m)]

/-- Body collection and resolution (source lines 170-189). -/
def collect (r : Response) : Outcome :=
  .resolved
    { status := r.statusCode
      headers := jsonStringify (r.headers.map (fun kv => (kv.1, JsonVal.str kv.2)))
      body := String.join r.chunks }

/-- The redirect target (source lines 141-148): an absolute location
(one with a hostname of its own) is used directly, otherwise the
location is appended to the current hostname.  A null hostname is
coerced to the string "null" as JavaScript does. -/
def newUrlOf (u1 loc : String) : String :=
  if (parseUrl loc).hostname.isSome then loc
  else (match (parseUrl u1).hostname with | some h => h | none => "null") ++ loc

/-- The mutated `requestOptions` passed to the recursive
`this.request(requestOptions)` call: same object, with `url` replaced
by the redirect target, `maxRedirects` decremented, and the headers
carrying any mutation done by body encoding (the source aliases
`options.headers` to `requestOptions.headers`). -/
def nextOptions (n : NormalOptions) (hd : Headers) (u1 loc : String) : RequestOptions :=
  { url := some (newUrlOf u1 loc)
    method := some n.method
    body := n.body
    contentType := some n.contentType
    headers := some hd
    followRedirect := some n.followRedirect
    maxRedirects := some (n.maxRedirects - 1)
    timeout := some n.timeout }

/-- Per-attempt verdict of the response handler. -/
inductive StepResult where
  | settled (o : Outcome) (aborted : Bool)
  | redirect (next : RequestOptions)
deriving DecidableEq

/-- The response/timeout/error handlers of one attempt (source lines
133-216): decides whether the attempt settles the promise (and whether
it aborts the in-flight request first) or chains into a recursive call
with updated options. -/
def step (n : NormalOptions) (u1 : String) (hd : Headers) : ServerEvent → StepResult
  | .timeout => .settled (.rejectedStr (errJson "ERR" "timeout")) true
  | .transportError c m => .settled (.rejectedObj ⟨c, m⟩) false
  | .response r =>
    if (300 ≤ r.statusCode ∧ r.statusCode < 400) ∧ (getLocation r).isSome then
      if n.followRedirect = true ∧ 0 < n.maxRedirects then
        .redirect (nextOptions n hd u1 ((getLocation r).getD ""))
      else .settled (collect r) false
    else if 400 ≤ r.statusCode ∧ r.statusCode < 500 then
      .settled (.rejectedObj ⟨"ERR", "CLIENT ERROR: " ++ toString r.statusCode⟩) false
    else if 500 ≤ r.statusCode then
      .settled (.rejectedObj ⟨"ERR", "SERVER ERROR: " ++ toString r.statusCode⟩) false
    else .settled (collect r) false

/-- The executor (source lines 51-218).  Given the configuration and
the per-attempt transport events, returns how the promise settles and
the trace of network attempts (empty when no network call is made).
A missing URL rejects with the stringified error object; the thrown
`TypeError` that follows in the source is swallowed by the already
settled promise, so no request is issued. -/
def request (opts : RequestOptions) (events : List ServerEvent) : Outcome × List Attempt :=
  match (normalize opts).url with
  | none => (.rejectedStr (errJson "ERR" "URL MISSING"), [])
  | some u0 =>
    let n := normalize opts
    let u1 := backfillScheme u0
    let att := mkAttempt n u1
    match events with
    | [] => (.noEvent, [att])
    | ev :: rest =>
      match step n u1 (encodeBody n (parseUrl u1).path).hdrs ev with
      | .settled o ab => (o, [{ att with aborted := ab }])
      | .redirect next =>
        let res := request next rest
        (res.1, { att with aborted := true } :: res.2)

/-- An event is a 3xx response carrying a (truthy) location header. -/
def isRedirectEv : ServerEvent → Bool
  | .response r =>
    decide (300 ≤ r.statusCode) && decide (r.statusCode < 400) && (getLocation r).isSome
  | _ => false

/-- Concrete configuration with no `url`. -/
def cfgNoUrl : RequestOptions := {}

/-- Concrete configuration with a plain http URL. -/
def cfgHttp : RequestOptions := { url := some "http://x.com" }

/-- Concrete POST with a JSON content type (lowercase, as users write it). -/
def cfgPost : RequestOptions :=
  { url := some "http://x.com", method := some "post",
    body := some [("a", .str "b"), ("n", .num 5)], contentType := some "json" }

/-- Concrete POST whose body contains a non-ASCII character. -/
def cfgNonAscii : RequestOptions :=
  { url := some "http://x.com", method := some "POST",
    body := some [("a", .str "é")], contentType := some "JSON" }

/-- Concrete configuration allowing two redirects. -/
def cfgChain : RequestOptions :=
  { url := some "https://a.com/start", followRedirect := some true, maxRedirects := some 2 }

/-- Concrete configuration with a scheme-less URL. -/
def cfgBare : RequestOptions := { url := some "x.com/p" }

/-- Concrete configuration with three redirects allowed. -/
def cfgMax3 : RequestOptions := { url := some "http://x.com", maxRedirects := some 3 }

/-- Concrete https configuration. -/
def cfgHttps : RequestOptions :=
  { url := some "https://a.com/s", followRedirect := some true, maxRedirects := some 5 }

/-- A 301 with a relative location. -/
def resp301 : Response := ⟨301, [("location", "/n1")], []⟩

/-- A 302 with an absolute location. -/
def resp302 : Response := ⟨302, [("location", "http://b.org/p")], []⟩

/-- A plain 200 delivering two chunks. -/
def resp200 : Response := ⟨200, [("a", "b")], ["ab", "cd"]⟩

/-- A 404 response. -/
def resp404 : Response := ⟨404, [], []⟩

/-- A 500 response. -/
def resp500 : Response := ⟨500, [], []⟩

/-- A 307 with a relative location. -/
def resp307 : Response := ⟨307, [("location", "/next")], []⟩

/-- A 303 without a location header. -/
def resp303NoLoc : Response := ⟨303, [], ["x"]⟩

/-- The timeout handler aborts and rejects with the stringified error. -/
theorem step_timeout (n : NormalOptions) (u1 : String) (hd : Headers) :
    step n u1 hd .timeout = .settled (.rejectedStr (errJson "ERR" "timeout")) true := rfl

/-- A followable 3xx response chains into a recursive call. -/
theorem step_redirect (n : NormalOptions) (u1 : String) (hd : Headers) (r : Response)
    (loc : String)
    (h3 : 300 ≤ r.statusCode) (h4 : r.statusCode < 400) (hl : getLocation r = some loc)
    (hf : n.followRedirect = true) (hm : 0 < n.maxRedirects) :
    step n u1 hd (.response r) = .redirect (nextOptions n hd u1 loc) := by
  simp [step, h3, h4, hl, hf, hm]

/-- A 3xx response whose redirect conditions fail falls through to
body collection. -/
theorem step_3xx_nofollow (n : NormalOptions) (u1 : String) (hd : Headers) (r : Response)
    (h3 : 300 ≤ r.statusCode) (h4 : r.statusCode < 400)
    (hc : getLocation r = none ∨ n.followRedirect = false ∨ n.maxRedirects ≤ 0) :
    step n u1 hd (.response r) = .settled (collect r) false := by
  have h45 : ¬(400 ≤ r.statusCode ∧ r.statusCode < 500) := by omega
  have h5 : ¬(500 ≤ r.statusCode) := by omega
  rcases hc with hc | hc | hc
  · simp [step, hc, h45, h5]
  · simp [step, hc, h45, h5]
  · have hm : ¬(0 < n.maxRedirects) := by omega
    simp [step, h45, h5, hm]

/-- Without a `url` the executor rejects at once and issues no attempt. -/
theorem request_url_none (opts : RequestOptions) (events : List ServerEvent)
    (hu : (normalize opts).url = none) :
    request opts events = (.rejectedStr (errJson "ERR" "URL MISSING"), []) := by
  unfold request
  rw [hu]

/-- With a `url` but no transport event the attempt is issued and the
promise stays pending. -/
theorem request_nil (opts : RequestOptions) (u : String)
    (hu : (normalize opts).url = some u) :
    request opts [] = (.noEvent, [mkAttempt (normalize opts) (backfillScheme u)]) := by
  unfold request
  rw [hu]

/-- A settling event produces a one-attempt trace. -/
theorem request_cons_settled (opts : RequestOptions) (u : String) (ev : ServerEvent)
    (rest : List ServerEvent) (o : Outcome) (ab : Bool)
    (hu : (normalize opts).url = some u)
    (hs : step (normalize opts) (backfillScheme u)
        (encodeBody (normalize opts) (parseUrl (backfillScheme u)).path).hdrs ev = .settled o ab) :
    request opts (ev :: rest) =
      (o, [{ mkAttempt (normalize opts) (backfillScheme u) with aborted := ab }]) := by
  unfold request
  rw [hu]
  simp only []
  rw [hs]

/-- A followed redirect aborts the current attempt and chains into the
recursive call on the remaining events. -/
theorem request_cons_redirect (opts : RequestOptions) (u : String) (ev : ServerEvent)
    (rest : List ServerEvent) (next : RequestOptions)
    (hu : (normalize opts).url = some u)
    (hs : step (normalize opts) (backfillScheme u)
        (encodeBody (normalize opts) (parseUrl (backfillScheme u)).path).hdrs ev = .redirect next) :
    request opts (ev :: rest) =
      ((request next rest).1,
        { mkAttempt (normalize opts) (backfillScheme u) with aborted := true } ::
          (request next rest).2) := by
  conv_lhs => unfold request
  rw [hu]
  simp only []
  rw [hs]

/-- A `redirect` verdict always carries the mutated options object. -/
theorem step_redirect_inv (n : NormalOptions) (u1 : String) (hd : Headers)
    (ev : ServerEvent) (next : RequestOptions)
    (h : step n u1 hd ev = .redirect next) :
    ∃ loc, next = nextOptions n hd u1 loc := by
  cases ev with
  | timeout => simp [step] at h
  | transportError c m => simp [step] at h
  | response r =>
    simp only [step] at h
    split at h
    · split at h
      · injection h with h
        exact ⟨_, h.symm⟩
      · simp at h
    · split at h
      · simp at h
      · split at h
        · simp at h
        · simp at h

/-- Re-normalizing the options passed to the recursive call: the URL
is the redirect target and the counter is the decremented one. -/
theorem normalize_nextOptions (n : NormalOptions) (hd : Headers) (u1 loc : String) :
    normalize (nextOptions n hd u1 loc) =
      { url := some (newUrlOf u1 loc)
        method := jsToUpper n.method
        body := n.body
        contentType := jsToUpper n.contentType
        headers := hd
        followRedirect := n.followRedirect
        maxRedirects := n.maxRedirects - 1
        timeout := n.timeout } := rfl

/-- The counter recorded on an attempt is the normalized one. -/
theorem mkAttempt_remaining (n : NormalOptions) (u1 : String) :
    (mkAttempt n u1).remaining = n.maxRedirects := rfl

/-- Along any run, the `maxRedirects` value in flight during the
`i`-th attempt is the initial value minus `i`: it is decremented
exactly once per followed redirect. -/
theorem request_remaining (events : List ServerEvent) :
    ∀ (opts : RequestOptions) (i : Nat) (a : Attempt),
      (request opts events).2[i]? = some a →
      a.remaining = (normalize opts).maxRedirects - (i : Int) := by
  induction events with
  | nil =>
    intro opts i a h
    cases hu : (normalize opts).url with
    | none =>
      rw [request_url_none opts [] hu] at h
      simp at h
    | some u =>
      rw [request_nil opts u hu] at h
      cases i with
      | zero =>
        simp at h
        rw [← h]
        simp [mkAttempt_remaining]
      | succ j => simp at h
  | cons ev rest ih =>
    intro opts i a h
    cases hu : (normalize opts).url with
    | none =>
      rw [request_url_none _ _ hu] at h
      simp at h
    | some u =>
      rcases hstep : step (normalize opts) (backfillScheme u)
          (encodeBody (normalize opts) (parseUrl (backfillScheme u)).path).hdrs ev with
        ⟨o, ab⟩ | next
      · rw [request_cons_settled _ _ _ _ _ _ hu hstep] at h
        cases i with
        | zero =>
          simp at h
          rw [← h]
          simp [mkAttempt_remaining]
        | succ j => simp at h
      · rw [request_cons_redirect _ _ _ _ _ hu hstep] at h
        cases i with
        | zero =>
          simp at h
          rw [← h]
          simp [mkAttempt_remaining]
        | succ j =>
          simp only [List.getElem?_cons_succ] at h
          have hj := ih next j a h
          obtain ⟨loc, rfl⟩ := step_redirect_inv _ _ _ _ _ hstep
          rw [normalize_nextOptions] at hj
          simp at hj
          rw [hj]
          push_cast
          ring

/-- The number of attempts is bounded by the initial counter plus
one: redirect-following always terminates. -/
theorem request_length_le (events : List ServerEvent) :
    ∀ opts : RequestOptions,
      (request opts events).2.length ≤ (normalize opts).maxRedirects.toNat + 1 := by
  induction events with
  | nil =>
    intro opts
    cases hu : (normalize opts).url with
    | none => rw [request_url_none opts [] hu]; simp
    | some u => rw [request_nil opts u hu]; simp
  | cons ev rest ih =>
    intro opts
    cases hu : (normalize opts).url with
    | none => rw [request_url_none _ _ hu]; simp
    | some u =>
      rcases hstep : step (normalize opts) (backfillScheme u)
          (encodeBody (normalize opts) (parseUrl (backfillScheme u)).path).hdrs ev with
        ⟨o, ab⟩ | next
      · rw [request_cons_settled _ _ _ _ _ _ hu hstep]
        simp
      · rw [request_cons_redirect _ _ _ _ _ hu hstep]
        have hm : 0 < (normalize opts).maxRedirects := by
          by_contra hm
          cases ev with
          | timeout => simp [step] at hstep
          | transportError c m => simp [step] at hstep
          | response r =>
            simp only [step] at hstep
            split at hstep
            · split at hstep
              · rename_i hcond
                exact hm hcond.2
              · simp at hstep
            · split at hstep
              · simp at hstep
              · split at hstep
                · simp at hstep
                · simp at hstep
        obtain ⟨loc, rfl⟩ := step_redirect_inv _ _ _ _ _ hstep
        have hnext := ih (nextOptions (normalize opts)
          (encodeBody (normalize opts) (parseUrl (backfillScheme u)).path).hdrs
          (backfillScheme u) loc)
        rw [normalize_nextOptions] at hnext
        simp only [List.length_cons]
        simp at hnext
        omega

theorem request_head (opts : RequestOptions) (u : String) (events : List ServerEvent)
    (hu : (normalize opts).url = some u) :
    ∃ b : Bool,
      (request opts events).2.head? =
        some { mkAttempt (normalize opts) (backfillScheme u) with aborted := b } := by
  cases events with
  | nil =>
    refine ⟨false, ?_⟩
    rw [request_nil opts u hu]
    rfl
  | cons ev rest =>
    rcases hstep : step (normalize opts) (backfillScheme u)
        (encodeBody (normalize opts) (parseUrl (backfillScheme u)).path).hdrs ev with
      ⟨o, ab⟩ | next
    · refine ⟨ab, ?_⟩
      rw [request_cons_settled _ _ _ _ _ _ hu hstep]
      rfl
    · refine ⟨true, ?_⟩
      rw [request_cons_redirect _ _ _ _ _ hu hstep]
      rfl

/-- Following a chain of redirect events leaves the executor running
the tail with an exhausted counter, having recorded one attempt per
chain element. -/
theorem request_chain (evs : List ServerEvent) :
    ∀ (opts : RequestOptions) (u : String),
      (normalize opts).url = some u →
      (normalize opts).followRedirect = true →
      (normalize opts).maxRedirects = (evs.length : Int) →
      (∀ e ∈ evs, isRedirectEv e = true) →
      ∀ tail : List ServerEvent,
        ∃ (opts2 : RequestOptions) (u2 : String),
          (normalize opts2).url = some u2 ∧
          (normalize opts2).followRedirect = true ∧
          (normalize opts2).maxRedirects = 0 ∧
          (request opts (evs ++ tail)).1 = (request opts2 tail).1 ∧
          (request opts (evs ++ tail)).2.length = evs.length + (request opts2 tail).2.length := by
  induction evs with
  | nil =>
    intro opts u hu hf hm _ tail
    exact ⟨opts, u, hu, hf, hm, rfl, by simp⟩
  | cons e es ih =>
    intro opts u hu hf hm hevs tail
    have he : isRedirectEv e = true := hevs e (List.mem_cons_self e es)
    cases e with
    | timeout => simp [isRedirectEv] at he
    | transportError c m => simp [isRedirectEv] at he
    | response r =>
      simp only [isRedirectEv, Bool.and_eq_true, decide_eq_true_eq] at he
      obtain ⟨⟨h3, h4⟩, hloc⟩ := he
      obtain ⟨loc, hloc⟩ := Option.isSome_iff_exists.mp hloc
      simp only [List.length_cons] at hm
      have hm0 : 0 < (normalize opts).maxRedirects := by
        rw [hm]
        exact_mod_cast Nat.succ_pos es.length
      have hstep := step_redirect (normalize opts) (backfillScheme u)
        (encodeBody (normalize opts) (parseUrl (backfillScheme u)).path).hdrs r loc h3 h4 hloc hf hm0
      have hrw := request_cons_redirect opts u (.response r) (es ++ tail) _ hu hstep
      have hnext := ih (nextOptions (normalize opts)
          (encodeBody (normalize opts) (parseUrl (backfillScheme u)).path).hdrs
          (backfillScheme u) loc)
        (newUrlOf (backfillScheme u) loc) rfl
        (by rw [normalize_nextOptions]; exact hf)
        (by rw [normalize_nextOptions]; rw [hm]; push_cast; ring)
        (fun e2 he2 => hevs e2 (List.mem_cons_of_mem _ he2)) tail
      obtain ⟨opts2, u2, h1, h2, h3x, h4x, h5x⟩ := hnext
      refine ⟨opts2, u2, h1, h2, h3x, ?_, ?_⟩
      · simp only [List.cons_append]
        rw [hrw]
        exact h4x
      · simp only [List.cons_append]
        rw [hrw]
        simp only [List.length_cons]
        rw [h5x]
        omega

/-- A 4xx response settles with a CLIENT ERROR rejection. -/
theorem step_4xx (n : NormalOptions) (u1 : String) (hd : Headers) (r : Response)
    (h4 : 400 ≤ r.statusCode) (h5 : r.statusCode < 500) :
    step n u1 hd (.response r) =
      .settled (.rejectedObj ⟨"ERR", "CLIENT ERROR: " ++ toString r.statusCode⟩) false := by
  have hno : ¬(300 ≤ r.statusCode ∧ r.statusCode < 400) := by omega
  simp [step, hno, h4, h5]

/-- A 5xx response settles with a SERVER ERROR rejection. -/
theorem step_5xx (n : NormalOptions) (u1 : String) (hd : Headers) (r : Response)
    (h5 : 500 ≤ r.statusCode) :
    step n u1 hd (.response r) =
      .settled (.rejectedObj ⟨"ERR", "SERVER ERROR: " ++ toString r.statusCode⟩) false := by
  have hno : ¬(300 ≤ r.statusCode ∧ r.statusCode < 400) := by omega
  have hno4 : ¬(400 ≤ r.statusCode ∧ r.statusCode < 500) := by omega
  simp [step, hno, hno4, h5]

/-- A response below 300 settles by collecting the body. -/
theorem step_lt300 (n : NormalOptions) (u1 : String) (hd : Headers) (r : Response)
    (h2 : r.statusCode < 300) :
    step n u1 hd (.response r) = .settled (collect r) false := by
  have hno : ¬(300 ≤ r.statusCode ∧ r.statusCode < 400) := by omega
  have hno4 : ¬(400 ≤ r.statusCode ∧ r.statusCode < 500) := by omega
  have hno5 : ¬(500 ≤ r.statusCode) := by omega
  simp [step, hno, hno4, hno5]

/-- C2 (amended): for every configuration whose `url` is absent or
null, the promise rejects with the JSON string serialization of
`\x7bcode: "ERR", msg: "URL MISSING"\x7d` — a string reason, not the
structured error object — and no network attempt is made. -/
theorem gimme_c2 (opts : RequestOptions) (events : List ServerEvent)
    (hu : (normalize opts).url = none) :
    request opts events = (.rejectedStr (errJson "ERR" "URL MISSING"), []) :=
  request_url_none opts events hu

/-- C2 witness: the empty configuration rejects with the stringified
error and an empty attempt trace. -/
theorem gimme_c2_witness :
    (normalize cfgNoUrl).url = none ∧
      request cfgNoUrl [] = (.rejectedStr (errJson "ERR" "URL MISSING"), []) :=
  ⟨rfl, gimme_c2 cfgNoUrl [] rfl⟩

/-- C2 counterexample: as stated the claim is false — at the concrete
missing-url configuration the rejection reason is the JSON string, not
the structured `ErrorInfo` object. -/
theorem gimme_c2_cex :
    (request cfgNoUrl []).1 ≠ .rejectedObj ⟨"ERR", "URL MISSING"⟩ ∧
      (request cfgNoUrl []).1 = .rejectedStr "\x7b\"code\":\"ERR\",\"msg\":\"URL MISSING\"\x7d" := by
  constructor
  · decide
  · decide

/-- C3: a response with status in [400,500) rejects with
`CLIENT ERROR: <status>`, and a response with status at least 500
rejects with `SERVER ERROR: <status>`, both as structured errors. -/
theorem gimme_c3 (opts : RequestOptions) (u : String) (r : Response)
    (rest : List ServerEvent) (hu : (normalize opts).url = some u) :
    (400 ≤ r.statusCode → r.statusCode < 500 →
      (request opts (.response r :: rest)).1 =
        .rejectedObj ⟨"ERR", "CLIENT ERROR: " ++ toString r.statusCode⟩) ∧
    (500 ≤ r.statusCode →
      (request opts (.response r :: rest)).1 =
        .rejectedObj ⟨"ERR", "SERVER ERROR: " ++ toString r.statusCode⟩) := by
  constructor
  · intro h4 h5
    rw [request_cons_settled _ _ _ _ _ _ hu (step_4xx _ _ _ _ h4 h5)]
  · intro h5
    rw [request_cons_settled _ _ _ _ _ _ hu (step_5xx _ _ _ _ h5)]

/-- C3 witness: a 404 rejects with `CLIENT ERROR: 404` and a 500 with
`SERVER ERROR: 500`. -/
theorem gimme_c3_witness :
    (request cfgHttp [.response resp404]).1 =
        .rejectedObj ⟨"ERR", "CLIENT ERROR: " ++ toString resp404.statusCode⟩ ∧
      (request cfgHttp [.response resp500]).1 =
        .rejectedObj ⟨"ERR", "SERVER ERROR: " ++ toString resp500.statusCode⟩ :=
  ⟨(gimme_c3 cfgHttp "http://x.com" resp404 [] rfl).1 (by decide) (by decide),
   (gimme_c3 cfgHttp "http://x.com" resp500 [] rfl).2 (by decide)⟩

/-- C4: a 3xx response whose redirect conditions fail (no location, or
redirect-following disabled, or counter exhausted) is not followed:
the executor resolves with that response's status, stringified
headers, and concatenated body, in a single attempt. -/
theorem gimme_c4 (opts : RequestOptions) (u : String) (r : Response)
    (rest : List ServerEvent) (hu : (normalize opts).url = some u)
    (h3 : 300 ≤ r.statusCode) (h4 : r.statusCode < 400)
    (hc : getLocation r = none ∨ (normalize opts).followRedirect = false ∨
      (normalize opts).maxRedirects ≤ 0) :
    (request opts (.response r :: rest)).1 =
      .resolved
        { status := r.statusCode
          headers := jsonStringify (r.headers.map (fun kv => (kv.1, JsonVal.str kv.2)))
          body := String.join r.chunks } ∧
    (request opts (.response r :: rest)).2.length = 1 := by
  rw [request_cons_settled _ _ _ _ _ _ hu (step_3xx_nofollow _ _ _ _ h3 h4 hc)]
  exact ⟨rfl, rfl⟩

/-- C4 witness: a 303 without a location header resolves like a
success. -/
theorem gimme_c4_witness :
    (request cfgHttp [.response resp303NoLoc]).1 =
      .resolved
        { status := resp303NoLoc.statusCode
          headers := jsonStringify (resp303NoLoc.headers.map (fun kv => (kv.1, JsonVal.str kv.2)))
          body := String.join resp303NoLoc.chunks } :=
  (gimme_c4 cfgHttp "http://x.com" resp303NoLoc [] rfl (by decide) (by decide)
    (Or.inl (by decide))).1

/-- C7 (amended): a socket timeout aborts the in-flight request and
rejects with the JSON string serialization of
`\x7bcode: "ERR", msg: "timeout"\x7d` — a string reason, not the
structured error object. -/
theorem gimme_c7 (opts : RequestOptions) (u : String) (rest : List ServerEvent)
    (hu : (normalize opts).url = some u) :
    (request opts (.timeout :: rest)).1 = .rejectedStr (errJson "ERR" "timeout") ∧
    ∀ a ∈ (request opts (.timeout :: rest)).2, a.aborted = true := by
  rw [request_cons_settled _ _ _ _ _ _ hu (step_timeout _ _ _)]
  refine ⟨rfl, ?_⟩
  intro a ha
  simp at ha
  rw [ha]

/-- C7 witness: a concrete timeout run. -/
theorem gimme_c7_witness :
    (request cfgHttp [.timeout]).1 = .rejectedStr (errJson "ERR" "timeout") ∧
      ∀ a ∈ (request cfgHttp [.timeout]).2, a.aborted = true :=
  gimme_c7 cfgHttp "http://x.com" [] rfl

/-- C7 counterexample: as stated the claim is false — at the concrete
timeout run the rejection reason is the JSON string, not the
structured error object. -/
theorem gimme_c7_cex :
    (request cfgHttp [.timeout]).1 ≠ .rejectedObj ⟨"ERR", "timeout"⟩ ∧
      (request cfgHttp [.timeout]).1 = .rejectedStr "\x7b\"code\":\"ERR\",\"msg\":\"timeout\"\x7d" := by
  constructor
  · decide
  · decide

/-- C1: with `followRedirect` and `maxRedirects = N`, a chain of `N`
3xx-with-location responses followed by a 2xx makes exactly `N`
chained attempts (N+1 network attempts in all, the counter in flight
decreasing from `N` to `0`) and resolves with the final 2xx response;
had the `(N+1)`-th response been another 3xx-with-location it would
not have been followed: the run resolves with that 3xx response and
still makes only `N+1` attempts. -/
theorem gimme_c1 (N : Nat) (opts : RequestOptions) (u : String)
    (evs : List ServerEvent) (rfin r2 : Response)
    (hu : (normalize opts).url = some u)
    (hf : (normalize opts).followRedirect = true)
    (hm : (normalize opts).maxRedirects = (N : Int))
    (hlen : evs.length = N)
    (hevs : ∀ e ∈ evs, isRedirectEv e = true)
    (hfin : 200 ≤ rfin.statusCode ∧ rfin.statusCode < 300)
    (hr2 : isRedirectEv (.response r2) = true) :
    ((request opts (evs ++ [.response rfin])).1 =
        .resolved
          { status := rfin.statusCode
            headers := jsonStringify (rfin.headers.map (fun kv => (kv.1, JsonVal.str kv.2)))
            body := String.join rfin.chunks } ∧
      (request opts (evs ++ [.response rfin])).2.length = N + 1 ∧
      (∀ (i : Nat) (a : Attempt), (request opts (evs ++ [.response rfin])).2[i]? = some a →
        a.remaining = (N : Int) - (i : Int))) ∧
    ((request opts (evs ++ [.response r2])).1 =
        .resolved
          { status := r2.statusCode
            headers := jsonStringify (r2.headers.map (fun kv => (kv.1, JsonVal.str kv.2)))
            body := String.join r2.chunks } ∧
      (request opts (evs ++ [.response r2])).2.length = N + 1) := by
  have hm2 : (normalize opts).maxRedirects = (evs.length : Int) := by rw [hm, hlen]
  constructor
  · obtain ⟨opts2, u2, h1, _, _, h4x, h5x⟩ :=
      request_chain evs opts u hu hf hm2 hevs [.response rfin]
    have hstep := step_lt300 (normalize opts2) (backfillScheme u2)
      (encodeBody (normalize opts2) (parseUrl (backfillScheme u2)).path).hdrs rfin hfin.2
    have hrw := request_cons_settled opts2 u2 (.response rfin) [] _ _ h1 hstep
    refine ⟨?_, ?_, ?_⟩
    · rw [h4x, hrw]
      rfl
    · rw [h5x, hrw]
      simp [hlen]
    · intro i a h
      have := request_remaining (evs ++ [.response rfin]) opts i a h
      rw [hm] at this
      exact this
  · obtain ⟨opts2, u2, h1, h2, h3x, h4x, h5x⟩ :=
      request_chain evs opts u hu hf hm2 hevs [.response r2]
    simp only [isRedirectEv, Bool.and_eq_true, decide_eq_true_eq] at hr2
    obtain ⟨⟨h3, h4⟩, _⟩ := hr2
    have hstep := step_3xx_nofollow (normalize opts2) (backfillScheme u2)
      (encodeBody (normalize opts2) (parseUrl (backfillScheme u2)).path).hdrs r2 h3 h4
      (Or.inr (Or.inr (le_of_eq h3x)))
    have hrw := request_cons_settled opts2 u2 (.response r2) [] _ _ h1 hstep
    constructor
    · rw [h4x, hrw]
      rfl
    · rw [h5x, hrw]
      simp [hlen]

/-- C1 witness: two redirects then a 200 resolve in three attempts, and
with a third 307 in place of the 200 the redirect is not followed. -/
theorem gimme_c1_witness :
    ((request cfgChain [.response resp301, .response resp302, .response resp200]).1 =
        .resolved
          { status := resp200.statusCode
            headers := jsonStringify (resp200.headers.map (fun kv => (kv.1, JsonVal.str kv.2)))
            body := String.join resp200.chunks } ∧
      (request cfgChain [.response resp301, .response resp302, .response resp200]).2.length = 2 + 1) ∧
    (request cfgChain [.response resp301, .response resp302, .response resp307]).2.length = 2 + 1 := by
  have h := gimme_c1 2 cfgChain "https://a.com/start"
    [.response resp301, .response resp302] resp200 resp307 rfl rfl rfl rfl
    (by decide) (by decide) (by decide)
  exact ⟨⟨h.1.1, h.1.2.1⟩, h.2.2⟩

/-- C9: for an initial counter `N ≥ 0` the run makes at most `N + 1`
attempts (redirect-following is bounded and terminates), the counter
in flight during attempt `i` is exactly `N - i` (decremented once per
followed redirect, only while strictly positive), and it never becomes
negative. -/
theorem gimme_c9 (opts : RequestOptions) (N : Int) (evs : List ServerEvent)
    (hm : (normalize opts).maxRedirects = N) (h0 : 0 ≤ N) :
    (request opts evs).2.length ≤ N.toNat + 1 ∧
    ∀ (i : Nat) (a : Attempt), (request opts evs).2[i]? = some a →
      a.remaining = N - (i : Int) ∧ 0 ≤ a.remaining := by
  have hlen := request_length_le evs opts
  rw [hm] at hlen
  refine ⟨hlen, ?_⟩
  intro i a h
  have hr := request_remaining evs opts i a h
  rw [hm] at hr
  refine ⟨hr, ?_⟩
  have hi : i < (request opts evs).2.length := by
    rcases List.getElem?_eq_some.mp h with ⟨hlt, _⟩
    exact hlt
  rw [hr]
  omega

/-- C9 witness: with `maxRedirects = 3` a concrete run stays within
four attempts. -/
theorem gimme_c9_witness :
    (request cfgMax3 [.response resp301, .timeout]).2.length ≤ (3 : Int).toNat + 1 :=
  (gimme_c9 cfgMax3 3 [.response resp301, .timeout] rfl (by decide)).1

theorem lookupHeader_any_false (hs : Headers) (k : String)
    (h : hs.any (fun kv => kv.1 == k) = false) :
    lookupHeader hs k = none := by
  induction hs with
  | nil => rfl
  | cons kv rest ih =>
    simp only [List.any_cons, Bool.or_eq_false_iff, beq_eq_false_iff_ne] at h
    simp only [lookupHeader, if_neg h.1]
    exact ih (by simpa using h.2)

theorem lookupHeader_map_set (hs : Headers) (k : String) (v : HVal)
    (h : hs.any (fun kv => kv.1 == k) = true) :
    lookupHeader (hs.map (fun kv => if kv.1 == k then (k, v) else kv)) k = some v := by
  induction hs with
  | nil => simp at h
  | cons kv rest ih =>
    by_cases hk : kv.1 = k
    · simp [lookupHeader, hk]
    · simp only [List.any_cons, Bool.or_eq_true] at h
      have h2 : rest.any (fun kv => kv.1 == k) = true := by
        rcases h with h | h
        · exact absurd (by simpa using h) hk
        · exact h
      simp only [List.map_cons, if_neg (show ¬((kv.1 == k) = true) by simpa using hk)]
      simp only [lookupHeader, if_neg hk]
      exact ih h2

theorem lookupHeader_append_single (hs : Headers) (k : String) (v : HVal)
    (h : lookupHeader hs k = none) :
    lookupHeader (hs ++ [(k, v)]) k = some v := by
  induction hs with
  | nil => simp [lookupHeader]
  | cons kv rest ih =>
    simp only [lookupHeader] at h
    by_cases hk : kv.1 = k
    · rw [if_pos hk] at h
      exact absurd h (by simp)
    · rw [if_neg hk] at h
      simp only [List.cons_append, lookupHeader, if_neg hk]
      exact ih h

/-- Setting a header makes it the value the lookup finds. -/
theorem lookupHeader_setHeader_self (hs : Headers) (k : String) (v : HVal) :
    lookupHeader (setHeader hs k v) k = some v := by
  unfold setHeader
  by_cases hany : hs.any (fun kv => kv.1 == k) = true
  · rw [if_pos hany]
    exact lookupHeader_map_set hs k v hany
  · rw [if_neg hany]
    have hf : hs.any (fun kv => kv.1 == k) = false := by
      cases hx : hs.any (fun kv => kv.1 == k)
      · rfl
      · exact absurd hx hany
    exact lookupHeader_append_single hs k v (lookupHeader_any_false hs k hf)

/-- Setting one header leaves lookups of other keys unchanged. -/
theorem lookupHeader_setHeader_ne (hs : Headers) (k k2 : String) (v : HVal)
    (hne : k2 ≠ k) :
    lookupHeader (setHeader hs k v) k2 = lookupHeader hs k2 := by
  have hk2 : ¬(k = k2) := fun h => hne h.symm
  unfold setHeader
  by_cases hany : hs.any (fun kv => kv.1 == k) = true
  · rw [if_pos hany]
    clear hany
    induction hs with
    | nil => rfl
    | cons kv rest ih =>
      simp only [List.map_cons]
      by_cases hk : (kv.1 == k) = true
      · rw [if_pos hk]
        have hkk : kv.1 = k := by simpa using hk
        simp only [lookupHeader]
        rw [if_neg hk2, if_neg (by rw [hkk]; exact hk2)]
        exact ih
      · rw [if_neg hk]
        simp only [lookupHeader]
        by_cases hkv2 : kv.1 = k2
        · rw [if_pos hkv2, if_pos hkv2]
        · rw [if_neg hkv2, if_neg hkv2]
          exact ih
  · rw [if_neg hany]
    clear hany
    induction hs with
    | nil =>
      simp only [List.nil_append, lookupHeader]
      rw [if_neg hk2]
    | cons kv rest ih =>
      simp only [List.cons_append, lookupHeader]
      by_cases hkv2 : kv.1 = k2
      · rw [if_pos hkv2, if_pos hkv2]
      · rw [if_neg hkv2, if_neg hkv2]
        exact ih

/-- Body encoding for a non-GET request with a body: the payload is
always the JSON serialization; the content-type switch only picks the
declared header value; `Content-Length` is the JavaScript string
length of the payload. -/
theorem encodeBody_post (n : NormalOptions) (bp : String) (b : Body)
    (hb : n.body = some b) (hm : n.method ≠ "GET") :
    encodeBody n bp =
      { path := bp
        hdrs := setHeader
          (setHeader n.headers "Content-Type"
            (.s (match n.contentType with
                 | "JSON" => "application/json"
                 | "FORM" => "application/x-www-form-urlencoded"
                 | _ => "application/x-www-form-urlencoded")))
          "Content-Length" (.n (jsLength (jsonStringify b)))
        postData := some (jsonStringify b) } := by
  unfold encodeBody
  rw [hb]
  simp [hm]

/-- The declared content-type value as a simple conditional. -/
theorem ctHeaderVal_eq (ct : String) :
    (match ct with
     | "JSON" => "application/json"
     | "FORM" => "application/x-www-form-urlencoded"
     | _ => "application/x-www-form-urlencoded") =
    if ct = "JSON" then "application/json" else "application/x-www-form-urlencoded" := by
  split <;> simp_all

/-- C5: for a non-GET request with a body, the payload written on the
wire is the JSON serialization of the body regardless of the declared
`contentType`; the content type only selects the declared
`Content-Type` header (`application/json` exactly for `JSON`,
`application/x-www-form-urlencoded` for `FORM` and anything else). -/
theorem gimme_c5 (opts : RequestOptions) (u : String) (b : Body)
    (evs : List ServerEvent)
    (hu : (normalize opts).url = some u)
    (hb : (normalize opts).body = some b)
    (hm : (normalize opts).method ≠ "GET") :
    ∃ a : Attempt, (request opts evs).2.head? = some a ∧
      a.payload = some (jsonStringify b) ∧
      lookupHeader a.call.headers "Content-Type" =
        some (.s (if (normalize opts).contentType = "JSON"
          then "application/json" else "application/x-www-form-urlencoded")) := by
  have heb := encodeBody_post (normalize opts) (parseUrl (backfillScheme u)).path b hb hm
  obtain ⟨ab, hhead⟩ := request_head opts u evs hu
  refine ⟨_, hhead, ?_, ?_⟩
  · show ({ mkAttempt (normalize opts) (backfillScheme u) with aborted := ab }).payload =
      some (jsonStringify b)
    simp [mkAttempt, heb]
  · show lookupHeader
      ({ mkAttempt (normalize opts) (backfillScheme u) with aborted := ab }).call.headers
      "Content-Type" = _
    simp only [mkAttempt, heb]
    rw [lookupHeader_setHeader_ne _ _ _ _ (by decide), lookupHeader_setHeader_self]
    rw [ctHeaderVal_eq]

/-- C5 witness: a lowercase `post`/`json` configuration serializes the
body as JSON and declares `application/json`. -/
theorem gimme_c5_witness :
    ∃ a : Attempt, (request cfgPost []).2.head? = some a ∧
      a.payload = some (jsonStringify [("a", JsonVal.str "b"), ("n", JsonVal.num 5)]) ∧
      lookupHeader a.call.headers "Content-Type" =
        some (.s (if (normalize cfgPost).contentType = "JSON"
          then "application/json" else "application/x-www-form-urlencoded")) :=
  gimme_c5 cfgPost "http://x.com" [("a", JsonVal.str "b"), ("n", JsonVal.num 5)] [] rfl rfl
    (by decide)

/-- C6: at the failing input (a POST whose body contains `é`), the
code sets `Content-Length` to the JavaScript string length of the
JSON-serialized body (9 UTF-16 code units), while the byte length of
the payload written on the wire is 10 — the code does not declare the
byte length the claim promises. -/
theorem gimme_c6 :
    ((request cfgNonAscii []).2.map
        (fun a => (lookupHeader a.call.headers "Content-Type",
                   lookupHeader a.call.headers "Content-Length", a.payload))) =
      [(some (.s "application/json"), some (.n 9),
        some (jsonStringify [("a", JsonVal.str "é")]))] ∧
    jsLength (jsonStringify [("a", JsonVal.str "é")]) = 9 ∧
    utf8Len (jsonStringify [("a", JsonVal.str "é")]) = 10 := by
  exact ⟨by decide, by decide, by decide⟩

theorem takeUntil_fst_not (p : Char → Bool) :
    ∀ (l : List Char), ∀ c ∈ (takeUntil p l).1, p c = false := by
  intro l
  induction l with
  | nil =>
    intro c hc
    simp [takeUntil] at hc
  | cons d ds ih =>
    intro c hc
    rw [takeUntil] at hc
    by_cases hd : p d = true
    · rw [if_pos hd] at hc
      simp at hc
    · rw [if_neg hd] at hc
      simp at hc
      rcases hc with rfl | hc
      · simpa using hd
      · exact ih c hc

theorem takeUntil_fst_subset (p : Char → Bool) :
    ∀ (l : List Char), ∀ c ∈ (takeUntil p l).1, c ∈ l := by
  intro l
  induction l with
  | nil =>
    intro c hc
    simp [takeUntil] at hc
  | cons d ds ih =>
    intro c hc
    rw [takeUntil] at hc
    by_cases hd : p d = true
    · rw [if_pos hd] at hc
      simp at hc
    · rw [if_neg hd] at hc
      simp at hc
      rcases hc with rfl | hc
      · exact List.mem_cons_self c ds
      · exact List.mem_cons_of_mem d (ih c hc)

theorem takeUntil_append (p : Char → Bool) (a : List Char) (d : Char) (b : List Char)
    (ha : ∀ c ∈ a, p c = false) (hd : p d = true) :
    takeUntil p (a ++ d :: b) = (a, d :: b) := by
  induction a with
  | nil =>
    simp only [List.nil_append]
    rw [takeUntil, if_pos hd]
  | cons x xs ih =>
    have hx : p x = false := ha x (List.mem_cons_self x xs)
    simp only [List.cons_append]
    rw [takeUntil, if_neg (by simp [hx])]
    rw [ih (fun c hc => ha c (List.mem_cons_of_mem x hc))]

theorem takeUntil_all_not (p : Char → Bool) (a : List Char)
    (ha : ∀ c ∈ a, p c = false) :
    takeUntil p a = (a, []) := by
  induction a with
  | nil => rfl
  | cons x xs ih =>
    have hx : p x = false := ha x (List.mem_cons_self x xs)
    rw [takeUntil, if_neg (by simp [hx])]
    rw [ih (fun c hc => ha c (List.mem_cons_of_mem x hc))]

/-- The protocol reported by the post-scheme parser. -/
theorem parseRest_protocol (proto : String) (l : List Char) :
    (parseRest proto l).protocol = some proto := rfl

theorem parseUrl_http_append (s : String) :
    parseUrl ("http://" ++ s) = parseRest "http:" s.data := by
  have hd : ("http://" ++ s).data = "http://".data ++ s.data := String.data_append _ _
  unfold parseUrl
  rw [hd]
  rw [if_pos (by rw [ List.isPrefixOf_iff_prefix]; exact List.prefix_append _ _)]
  rw [List.drop_left' (by decide)]

theorem parseUrl_https_append (s : String) :
    parseUrl ("https://" ++ s) = parseRest "https:" s.data := by
  have hd : ("https://" ++ s).data = "https://".data ++ s.data := String.data_append _ _
  have hfalse : "http://".data.isPrefixOf ("https://".data ++ s.data) = false := rfl
  unfold parseUrl
  rw [hd]
  rw [if_neg (by rw [hfalse]; exact Bool.false_ne_true)]
  rw [if_pos (by rw [ List.isPrefixOf_iff_prefix]; exact List.prefix_append _ _)]
  rw [List.drop_left' (by decide)]

/-- A hostname produced by the parser is nonempty and contains neither
a colon nor a slash. -/
theorem parseRest_hostname_spec (proto : String) (l : List Char) (h : String)
    (hh : (parseRest proto l).hostname = some h) :
    h.data ≠ [] ∧ ∀ c ∈ h.data, c ≠ ':' ∧ c ≠ '/' := by
  unfold parseRest at hh
  simp only at hh
  by_cases h1 : (takeUntil (fun c => c == ':') (takeUntil (fun c => c == '/') l).1).1 = []
  · rw [if_pos h1] at hh
    exact absurd hh (by simp)
  · rw [if_neg h1] at hh
    injection hh with hh
    constructor
    · rw [← hh]
      simpa using h1
    · intro c hc
      rw [← hh] at hc
      have hc2 : c ∈ (takeUntil (fun c => c == ':') (takeUntil (fun c => c == '/') l).1).1 := by
        simpa using hc
      constructor
      · have := takeUntil_fst_not (fun c => c == ':') _ c hc2
        simpa using this
      · have hsub := takeUntil_fst_subset (fun c => c == ':') _ c hc2
        have := takeUntil_fst_not (fun c => c == '/') l c hsub
        simpa using this

theorem parseUrl_hostname_spec (u : String) (h : String)
    (hh : (parseUrl u).hostname = some h) :
    h.data ≠ [] ∧ ∀ c ∈ h.data, c ≠ ':' ∧ c ≠ '/' := by
  unfold parseUrl at hh
  split at hh
  · exact parseRest_hostname_spec _ _ _ hh
  · split at hh
    · exact parseRest_hostname_spec _ _ _ hh
    · exact absurd hh (by simp)

theorem hasScheme_of_protocol (u : String) (p : String)
    (hp : (parseUrl u).protocol = some p) :
    hasScheme u = true := by
  unfold parseUrl at hp
  unfold hasScheme
  split at hp
  · rename_i h1
    rw [h1, Bool.true_or]
  · split at hp
    · rename_i h2
      rw [h2, Bool.or_true]
    · exact absurd hp (by simp)

theorem backfillScheme_id (u : String) (h : hasScheme u = true) :
    backfillScheme u = u := by
  unfold backfillScheme
  rw [if_pos h]

theorem backfillScheme_prepend (u : String) (h : hasScheme u = false) :
    backfillScheme u = "http://" ++ u := by
  unfold backfillScheme
  rw [if_neg (by simp [h])]

theorem portOf_http_none (ro : UrlObj) (hp : ro.protocol = some "http:")
    (hn : ro.port = none) :
    portOf ro = some 80 := by
  unfold portOf
  rw [if_neg (fun hx => by rw [hp] at hx; exact absurd hx.2 (by simp))]
  rw [if_neg (fun hx => by rw [hp] at hx; exact absurd hx.2 (by simp))]
  rw [if_pos ⟨hn, hp⟩]

theorem portOf_https_none (ro : UrlObj) (hp : ro.protocol = some "https:")
    (hn : ro.port = none) :
    portOf ro = some 443 := by
  unfold portOf
  rw [if_neg (fun hx => by rw [hp] at hx; exact absurd hx.2 (by simp))]
  rw [if_pos ⟨hn, hp⟩]

theorem jsStartsWith_http_https (s : String) :
    jsStartsWith ("http://" ++ s) "https" = false := by
  unfold jsStartsWith
  rw [String.data_append]
  rfl

theorem not_prefix_http_concat (hst t : List Char)
    (hne : hst ≠ []) (hcolon : ∀ c ∈ hst, c ≠ ':') :
    "http://".data.isPrefixOf (hst ++ '/' :: t) = false := by
  cases hx : "http://".data.isPrefixOf (hst ++ '/' :: t)
  · rfl
  · exfalso
    rw [ List.isPrefixOf_iff_prefix] at hx
    obtain ⟨tt, htt⟩ := hx
    have hm1 : 1 ≤ hst.length := by
      cases hq : hst
      · exact absurd hq hne
      · simp [hq]
    by_cases hm : 5 ≤ hst.length
    · have e4 : (hst ++ '/' :: t)[4]? = some ':' := by
        rw [← htt]
        rw [List.getElem?_append_left (show (4 : Nat) < "http://".data.length by decide)]
        decide
      rw [List.getElem?_append_left (by omega)] at e4
      obtain ⟨hlt, heq⟩ := List.getElem?_eq_some.mp e4
      exact hcolon ':' (heq ▸ List.getElem_mem hlt) rfl
    · have em : ("http://".data ++ tt)[hst.length]? = some '/' := by
        rw [htt, List.getElem?_append_right (le_refl hst.length)]
        simp
      rw [List.getElem?_append_left (show hst.length < "http://".data.length by
        simp only [show "http://".data.length = 7 from rfl]; omega)] at em
      set m := hst.length with hmdef
      have hm4 : m ≤ 4 := by omega
      have hm1b : 1 ≤ m := hm1
      interval_cases m <;> exact absurd em (by decide)

theorem not_prefix_https_concat (hst t : List Char)
    (hne : hst ≠ []) (hcolon : ∀ c ∈ hst, c ≠ ':') :
    "https://".data.isPrefixOf (hst ++ '/' :: t) = false := by
  cases hx : "https://".data.isPrefixOf (hst ++ '/' :: t)
  · rfl
  · exfalso
    rw [ List.isPrefixOf_iff_prefix] at hx
    obtain ⟨tt, htt⟩ := hx
    have hm1 : 1 ≤ hst.length := by
      cases hq : hst
      · exact absurd hq hne
      · simp [hq]
    by_cases hm : 6 ≤ hst.length
    · have e5 : (hst ++ '/' :: t)[5]? = some ':' := by
        rw [← htt]
        rw [List.getElem?_append_left (show (5 : Nat) < "https://".data.length by decide)]
        decide
      rw [List.getElem?_append_left (by omega)] at e5
      obtain ⟨hlt, heq⟩ := List.getElem?_eq_some.mp e5
      exact hcolon ':' (heq ▸ List.getElem_mem hlt) rfl
    · have em : ("https://".data ++ tt)[hst.length]? = some '/' := by
        rw [htt, List.getElem?_append_right (le_refl hst.length)]
        simp
      rw [List.getElem?_append_left (show hst.length < "https://".data.length by
        simp only [show "https://".data.length = 8 from rfl]; omega)] at em
      set m := hst.length with hmdef
      have hm5 : m ≤ 5 := by omega
      have hm1b : 1 ≤ m := hm1
      interval_cases m <;> exact absurd em (by decide)

/-- A nonempty colon-free hostname followed by a slash-led location
never begins with a recognized scheme. -/
theorem hasScheme_concat_false (h loc : String)
    (hne : h.data ≠ []) (hcolon : ∀ c ∈ h.data, c ≠ ':')
    (hpath : ∃ t, loc.data = '/' :: t) :
    hasScheme (h ++ loc) = false := by
  obtain ⟨t, ht⟩ := hpath
  unfold hasScheme
  rw [String.data_append, ht]
  rw [not_prefix_http_concat h.data t hne hcolon,
    not_prefix_https_concat h.data t hne hcolon]
  rfl

/-- The call options of the first attempt of any run with a URL. -/
theorem request_head_call (opts : RequestOptions) (u : String) (evs : List ServerEvent)
    (hu : (normalize opts).url = some u) :
    ∀ a : Attempt, (request opts evs).2.head? = some a →
      a.call = (mkAttempt (normalize opts) (backfillScheme u)).call ∧
      a.usedHttps = (mkAttempt (normalize opts) (backfillScheme u)).usedHttps := by
  intro a ha
  obtain ⟨b, hb⟩ := request_head opts u evs hu
  rw [hb] at ha
  injection ha with ha
  rw [← ha]
  exact ⟨rfl, rfl⟩

/-- C8: a scheme-less URL is backfilled with `http://`, so the
resolved call uses the http module and port 80 when no explicit port
is present; more generally an http URL without an explicit port
resolves to port 80 and an https URL without an explicit port to
port 443. -/
theorem gimme_c8 (opts : RequestOptions) (u : String) (evs : List ServerEvent)
    (hu : (normalize opts).url = some u) :
    (hasScheme u = false →
      backfillScheme u = "http://" ++ u ∧
      ∀ a : Attempt, (request opts evs).2.head? = some a →
        a.usedHttps = false ∧
        ((parseUrl ("http://" ++ u)).port = none → a.call.port = some 80)) ∧
    ((parseUrl (backfillScheme u)).protocol = some "http:" →
      (parseUrl (backfillScheme u)).port = none →
      ∀ a : Attempt, (request opts evs).2.head? = some a → a.call.port = some 80) ∧
    ((parseUrl (backfillScheme u)).protocol = some "https:" →
      (parseUrl (backfillScheme u)).port = none →
      ∀ a : Attempt, (request opts evs).2.head? = some a → a.call.port = some 443) ∧
    (∃ a : Attempt, (request opts evs).2.head? = some a) := by
  refine ⟨?_, ?_, ?_, ?_⟩
  · intro hns
    have hbf : backfillScheme u = "http://" ++ u := backfillScheme_prepend u hns
    refine ⟨hbf, ?_⟩
    intro a ha
    obtain ⟨hcall, hhttps⟩ := request_head_call opts u evs hu a ha
    constructor
    · rw [hhttps]
      show jsStartsWith (backfillScheme u) "https" = false
      rw [hbf]
      exact jsStartsWith_http_https u
    · intro hport
      rw [hcall]
      show portOf (parseUrl (backfillScheme u)) = some 80
      rw [hbf]
      exact portOf_http_none _ (by rw [parseUrl_http_append]; rfl) hport
  · intro hp hn a ha
    obtain ⟨hcall, _⟩ := request_head_call opts u evs hu a ha
    rw [hcall]
    exact portOf_http_none _ hp hn
  · intro hp hn a ha
    obtain ⟨hcall, _⟩ := request_head_call opts u evs hu a ha
    rw [hcall]
    exact portOf_https_none _ hp hn
  · obtain ⟨b, hb⟩ := request_head opts u evs hu
    exact ⟨_, hb⟩

/-- C8 witness: the scheme-less URL `x.com/p` is backfilled and the
resulting call is plain http on port 80. -/
theorem gimme_c8_witness :
    backfillScheme "x.com/p" = "http://" ++ "x.com/p" ∧
      ∀ a : Attempt, (request cfgBare []).2.head? = some a →
        a.usedHttps = false ∧
        ((parseUrl ("http://" ++ "x.com/p")).port = none → a.call.port = some 80) :=
  (gimme_c8 cfgBare "x.com/p" [] rfl).1 (by decide)

/-- C10: an https request answered by a 3xx whose location is relative
(no hostname of its own, a slash-led path) re-issues the follow-up as
the bare hostname concatenated with the location: the new URL carries
no scheme, normalization prepends `http://`, and the chained attempt
goes out over plain http on port 80. -/
theorem gimme_c10 (opts : RequestOptions) (u h loc : String) (r : Response)
    (rest : List ServerEvent)
    (hu : (normalize opts).url = some u)
    (hproto : (parseUrl u).protocol = some "https:")
    (hhost : (parseUrl u).hostname = some h)
    (h3 : 300 ≤ r.statusCode) (h4 : r.statusCode < 400)
    (hl : getLocation r = some loc)
    (hrel : (parseUrl loc).hostname = none)
    (hpath : ∃ t, loc.data = '/' :: t)
    (hf : (normalize opts).followRedirect = true)
    (hm : 0 < (normalize opts).maxRedirects) :
    ∃ next : RequestOptions,
      request opts (.response r :: rest) =
        ((request next rest).1,
          { mkAttempt (normalize opts) u with aborted := true } :: (request next rest).2) ∧
      (normalize next).url = some (h ++ loc) ∧
      hasScheme (h ++ loc) = false ∧
      backfillScheme (h ++ loc) = "http://" ++ (h ++ loc) ∧
      (∃ a : Attempt, (request next rest).2.head? = some a) ∧
      (∀ a : Attempt, (request next rest).2.head? = some a →
        a.usedHttps = false ∧ a.call.port = some 80) := by
  have hsch : hasScheme u = true := hasScheme_of_protocol u _ hproto
  have hbf : backfillScheme u = u := backfillScheme_id u hsch
  obtain ⟨hne, hcs⟩ := parseUrl_hostname_spec u h hhost
  have hcolon : ∀ c ∈ h.data, c ≠ ':' := fun c hc => (hcs c hc).1
  have hslash : ∀ c ∈ h.data, c ≠ '/' := fun c hc => (hcs c hc).2
  have hnew : newUrlOf u loc = h ++ loc := by
    simp [newUrlOf, hrel, hhost]
  have hnoscheme : hasScheme (h ++ loc) = false :=
    hasScheme_concat_false h loc hne hcolon hpath
  have hbf2 : backfillScheme (h ++ loc) = "http://" ++ (h ++ loc) :=
    backfillScheme_prepend _ hnoscheme
  have hstep := step_redirect (normalize opts) (backfillScheme u)
    (encodeBody (normalize opts) (parseUrl (backfillScheme u)).path).hdrs r loc h3 h4 hl hf hm
  have hrw := request_cons_redirect opts u (.response r) rest _ hu hstep
  rw [hbf] at hrw
  have hu2 : (normalize (nextOptions (normalize opts)
      ((encodeBody (normalize opts) (parseUrl u).path).hdrs) u loc)).url = some (h ++ loc) := by
    rw [normalize_nextOptions]
    simpa using hnew
  refine ⟨_, hrw, hu2, hnoscheme, hbf2, ?_, ?_⟩
  · obtain ⟨b, hb⟩ := request_head _ (h ++ loc) rest hu2
    exact ⟨_, hb⟩
  · intro a ha
    obtain ⟨hcall, hhttps⟩ := request_head_call _ (h ++ loc) rest hu2 a ha
    constructor
    · rw [hhttps]
      show jsStartsWith (backfillScheme (h ++ loc)) "https" = false
      rw [hbf2]
      exact jsStartsWith_http_https _
    · rw [hcall]
      show portOf (parseUrl (backfillScheme (h ++ loc))) = some 80
      rw [hbf2, parseUrl_http_append]
      obtain ⟨t, ht⟩ := hpath
      have hdata : (h ++ loc).data = h.data ++ '/' :: t := by
        rw [String.data_append, ht]
      rw [hdata]
      have ha2 : takeUntil (fun c => c == '/') (h.data ++ '/' :: t) = (h.data, '/' :: t) :=
        takeUntil_append _ _ _ _ (fun c hc => by simp [hslash c hc]) (by decide)
      have hhp : takeUntil (fun c => c == ':') h.data = (h.data, []) :=
        takeUntil_all_not _ _ (fun c hc => by simp [hcolon c hc])
      apply portOf_http_none
      · exact parseRest_protocol _ _
      · show (parseRest "http:" (h.data ++ '/' :: t)).port = none
        unfold parseRest
        simp only [ha2, hhp]

/-- C10 witness: hostname `a.com` of `https://a.com/s` concatenated
with the relative location `/next` carries no scheme and is backfilled
with `http://`. -/
theorem gimme_c10_witness :
    hasScheme ("a.com" ++ "/next") = false ∧
      backfillScheme ("a.com" ++ "/next") = "http://" ++ ("a.com" ++ "/next") := by
  obtain ⟨next, hcon⟩ := gimme_c10 cfgHttps "https://a.com/s" "a.com" "/next" resp307 []
    rfl (by decide) (by decide) (by decide) (by decide) (by decide) (by decide)
    ⟨['n', 'e', 'x', 't'], by decide⟩ rfl (by decide)
  exact ⟨hcon.2.2.1, hcon.2.2.2.1⟩

end Gimme
